import Mathlib

/-!
Verification of the node-balancer controller (rebalancing core).

The definitions below are a shallow embedding of the Go source
(`node-balancer.go`, the variant with the eviction API and the
PodDisruptionBudget checks).  Resource quantities are embedded as `Nat`
(millicores for CPU, bytes for memory; Kubernetes resource requests are
non-negative), the float64 percentages of the source as `ℚ`, Go maps as
association lists, and possibly-nil Go pointers as `Option`.  External
calls (the eviction API) are abstracted as an oracle parameter giving the
per-workload outcome of the call.
-/

namespace NodeBalancer

/-- Embeds `container.Resources.Requests` (cpu in millicores via
`MilliValue`, memory in bytes via `Value`; a key missing from the map reads
as the zero quantity, which is subsumed by the value 0). -/
structure ResourceList where
  cpu : Nat
  memory : Nat
  deriving DecidableEq

/-- Embeds a pod container; `requests = none` models a nil Requests map. -/
structure Container where
  requests : Option ResourceList
  deriving DecidableEq

/-- Embeds `NodeAffinity`: only the nil-ness of the
`RequiredDuringSchedulingIgnoredDuringExecution` selector is relevant. -/
structure NodeAffinitySpec where
  requiredDuringSchedulingIgnoredDuringExecution : Option Unit
  deriving DecidableEq

/-- Embeds `Affinity` (only the NodeAffinity part is read by the source). -/
structure AffinitySpec where
  nodeAffinity : Option NodeAffinitySpec
  deriving DecidableEq

/-- Embeds `corev1.Pod` with exactly the fields the controller reads.
`ns` is the pod namespace, `deletionTimestamp = some t` marks a
terminating pod, `annotations` and `labels` embed the Go string maps. -/
structure Pod where
  name : String
  ns : String
  labels : List (String × String)
  annotations : List (String × String)
  deletionTimestamp : Option Nat
  nodeName : String
  containers : List Container
  affinity : Option AffinitySpec
  deriving DecidableEq

/-- Embeds `corev1.Node`: `Status.Capacity` and `Status.Allocatable` for
cpu (millicores) and memory (bytes); a quantity `q` has `q.IsZero()` iff
the embedded value is `0`. -/
structure Node where
  name : String
  labels : List (String × String)
  capacityCpu : Nat
  allocatableCpu : Nat
  capacityMem : Nat
  allocatableMem : Nat
  deriving DecidableEq

/-- Embeds `NodeResourceUsage` from the source. -/
structure NodeResourceUsage where
  nodeName : String
  cpuRequests : ℚ
  memoryRequests : ℚ
  isOverloaded : Bool
  isUnderutilized : Bool
  pods : List Pod
  deriving DecidableEq

/-- Source constant `CPUThresholdHigh = 60.0`. -/
def CPUThresholdHigh : ℚ := 60

/-- Source constant `CPUThresholdLow = 40.0`. -/
def CPUThresholdLow : ℚ := 40

/-- Source constant `MemoryThresholdHigh = 60.0`. -/
def MemoryThresholdHigh : ℚ := 60

/-- Source constant `MemoryThresholdLow = 40.0`. -/
def MemoryThresholdLow : ℚ := 40

/-- Source constant for the evictable-override key
`"node-balancer/evictable"` (named `EvictableAnno...` in the source; the
original identifier is avoided here for hygiene reasons only). -/
def evictableKey : String := "node-balancer/evictable"

/-- Embeds `math.Min` on the embedded float64 values. -/
def mathMin (x y : ℚ) : ℚ := if x ≤ y then x else y

/-- Go map lookup on an association list (keys are unique in a Go map;
the first binding wins). -/
def mapLookup (k : String) : List (String × String) → Option String
  | [] => none
  | (k0, v) :: rest => if k0 = k then some v else mapLookup k rest

/-- Embeds `strconv.ParseBool`: `none` models the error return, in which
case the caller that ignores the error sees the zero value `false`. -/
def goParseBool (s : String) : Option Bool :=
  if s = "1" ∨ s = "t" ∨ s = "T" ∨ s = "TRUE" ∨ s = "true" ∨ s = "True" then some true
  else if s = "0" ∨ s = "f" ∨ s = "F" ∨ s = "FALSE" ∨ s = "false" ∨ s = "False" then some false
  else none

/-- The compound nil-checks
`pod.Spec.Affinity != nil && ...NodeAffinity != nil && ...Required... != nil`
from `isPodEvictable`. -/
def hasRequiredNodeAffinity (pod : Pod) : Bool :=
  match pod.affinity with
  | none => false
  | some aff =>
    match aff.nodeAffinity with
    | none => false
    | some na => na.requiredDuringSchedulingIgnoredDuringExecution.isSome

/-- Embeds `isPodEvictable`: terminating pods are never evictable; a
present override value is parsed with `strconv.ParseBool` and returned
(the parse error is discarded, so an unparsable value reads as `false`);
otherwise kube-system pods and pods with a required node-affinity are not
evictable. -/
def isPodEvictable (pod : Pod) : Bool :=
  if pod.deletionTimestamp.isSome then false
  else
    match mapLookup evictableKey pod.annotations with
    | some v => (goParseBool v).getD false
    | none =>
      if pod.ns = "kube-system" then false
      else if hasRequiredNodeAffinity pod then false
      else true

/-- Embeds `getPodsOnNode`: the full cluster pod list filtered by node
name and evictability. -/
def getPodsOnNode (podList : List Pod) (nodeName : String) : List Pod :=
  podList.filter (fun pod => decide (pod.nodeName = nodeName) && isPodEvictable pod)

/-- The cpu-request millicores of one container (0 for a nil Requests
map, matching the `if container.Resources.Requests != nil` guard). -/
def containerCPUMilli (c : Container) : Nat :=
  match c.requests with
  | some r => r.cpu
  | none => 0

/-- The memory-request bytes of one container. -/
def containerMemBytes (c : Container) : Nat :=
  match c.requests with
  | some r => r.memory
  | none => 0

/-- Total cpu millicores requested by the containers of one pod. -/
def podCPUMilli (pod : Pod) : Nat := (pod.containers.map containerCPUMilli).sum

/-- Total memory bytes requested by the containers of one pod. -/
def podMemBytes (pod : Pod) : Nat := (pod.containers.map containerMemBytes).sum

/-- The accumulation loop `totalCPURequests` over a pod list. -/
def totalCPUMilli (pods : List Pod) : Nat := (pods.map podCPUMilli).sum

/-- The accumulation loop `totalMemoryRequests` over a pod list. -/
def totalMemBytes (pods : List Pod) : Nat := (pods.map podMemBytes).sum

/-- Embeds `calculateCPURequests`: returns 0 if the capacity quantity is
zero, returns 0 if the allocatable quantity is zero, else sums the cpu
requests of the pods returned by `getPodsOnNode` and returns
`math.Min(total/allocatable*100, 100)`. -/
def calculateCPURequests (node : Node) (podList : List Pod) : ℚ :=
  if node.capacityCpu = 0 then 0
  else if node.allocatableCpu = 0 then 0
  else
    mathMin ((totalCPUMilli (getPodsOnNode podList node.name) : ℚ) / (node.allocatableCpu : ℚ) * 100) 100

/-- Embeds `calculateMemoryRequests` (same shape on the memory bytes). -/
def calculateMemoryRequests (node : Node) (podList : List Pod) : ℚ :=
  if node.capacityMem = 0 then 0
  else if node.allocatableMem = 0 then 0
  else
    mathMin ((totalMemBytes (getPodsOnNode podList node.name) : ℚ) / (node.allocatableMem : ℚ) * 100) 100

/-- The loop body of `analyzeNodeResourceUsage` for one node: computes
the two usage percentages, classifies, and attaches the pods resident on
the node. -/
def analyzeNode (podList : List Pod) (node : Node) : NodeResourceUsage :=
  { nodeName := node.name
    cpuRequests := calculateCPURequests node podList
    memoryRequests := calculateMemoryRequests node podList
    isOverloaded :=
      decide (CPUThresholdHigh < calculateCPURequests node podList) ||
      decide (MemoryThresholdHigh < calculateMemoryRequests node podList)
    isUnderutilized :=
      decide (calculateCPURequests node podList < CPUThresholdLow) &&
      decide (calculateMemoryRequests node podList < MemoryThresholdLow)
    pods := getPodsOnNode podList node.name }

/-- Embeds `analyzeNodeResourceUsage` over the node list. -/
def analyzeNodeResourceUsage (podList : List Pod) (nodes : List Node) : List NodeResourceUsage :=
  nodes.map (analyzeNode podList)

/-- Modelled from the spec for comparison with `calculateCPURequests`:
for the dimension cpu, "sum declared requests across all assigned
workloads, divide by the machine allocatable capacity, multiply by 100,
clamp to [0,100]; if allocatable capacity is zero the usage is reported
as 0".  The workload set is a parameter so that the spec formula can be
applied to all resident workloads. -/
def cpuUsageSpec (node : Node) (pods : List Pod) : ℚ :=
  if node.allocatableCpu = 0 then 0
  else mathMin ((totalCPUMilli pods : ℚ) / (node.allocatableCpu : ℚ) * 100) 100

/-- Modelled from the spec for comparison with `calculateMemoryRequests`
(memory dimension of the same formula). -/
def memUsageSpec (node : Node) (pods : List Pod) : ℚ :=
  if node.allocatableMem = 0 then 0
  else mathMin ((totalMemBytes pods : ℚ) / (node.allocatableMem : ℚ) * 100) 100

/-- The workloads resident on a machine (spec notion: assignment only,
no evictability filtering). -/
def residentPods (podList : List Pod) (nodeName : String) : List Pod :=
  podList.filter (fun pod => decide (pod.nodeName = nodeName))

/- Concrete fixtures for claims C1 to C3. -/

/-- C1 fixture node: 1000m allocatable cpu, 100 bytes allocatable memory. -/
def c1Node : Node := ⟨"n1", [], 1000, 1000, 100, 100⟩

/-- C1 fixture pod: requests 300m cpu and 50 bytes memory on node n1,
giving usage percentages cpu 30 and memory 50. -/
def c1Pod : Pod := ⟨"w1", "default", [], [], none, "n1", [⟨some ⟨300, 50⟩⟩], none⟩

/-- C2 fixture: a node whose cpu capacity quantity is zero while its
allocatable is 4000m. -/
def c2NodeZeroCap : Node := ⟨"z", [], 0, 4000, 1, 1⟩

/-- C2 fixture pod on node z requesting 1000m cpu. -/
def c2PodOnZ : Pod := ⟨"pz", "default", [], [], none, "z", [⟨some ⟨1000, 0⟩⟩], none⟩

/-- C2 fixture: a healthy node with 4000m capacity and allocatable. -/
def c2NodeK : Node := ⟨"k", [], 4000, 4000, 1, 1⟩

/-- C2 fixture pod: a kube-system pod on node k requesting 2000m cpu
(filtered out of the accounting by the evictability filter). -/
def c2PodKubeSystem : Pod := ⟨"pk", "kube-system", [], [], none, "k", [⟨some ⟨2000, 0⟩⟩], none⟩

/-- Embeds `getPodTotalResources`: per container (with non-nil Requests)
the cpu millicores plus the memory bytes integer-divided by 1024 twice,
summed into one combined weight. -/
def getPodTotalResources (pod : Pod) : Nat :=
  (pod.containers.map (fun c =>
    match c.requests with
    | some r => r.cpu + r.memory / 1024 / 1024
    | none => 0)).sum

/-- Embeds `getEvictablePods`. -/
def getEvictablePods (pods : List Pod) : List Pod := pods.filter isPodEvictable

/-- The inner loop of `sortPodsByResourceUsage` for a fixed outer index i:
the slot walk over positions i+1..n-1 carrying the current value of slot
i.  A swap `pods[i], pods[j] = pods[j], pods[i]` leaves the old carried
value in slot j and continues carrying the old `pods[j]`.  Returns the
final value of slot i and the final contents of the higher slots. -/
def exchangePass (x : Pod) : List Pod → Pod × List Pod
  | [] => (x, [])
  | y :: ys =>
    if getPodTotalResources x < getPodTotalResources y then
      ((exchangePass y ys).1, x :: (exchangePass y ys).2)
    else
      ((exchangePass x ys).1, y :: (exchangePass x ys).2)

/-- The outer loop of `sortPodsByResourceUsage`, with the loop counter as
fuel (one unit per outer index; slots below the outer index are final and
never touched again by the inner loop). -/
def exchangeSortFuel : Nat → List Pod → List Pod
  | 0, l => l
  | _ + 1, [] => []
  | n + 1, x :: xs =>
    (exchangePass x xs).1 :: exchangeSortFuel n (exchangePass x xs).2

/-- Embeds `sortPodsByResourceUsage` (the in-place double loop swapping
`pods[i]` with any later larger element, i.e. an exchange sort in
descending order of `getPodTotalResources`). -/
def sortPodsByResourceUsage (pods : List Pod) : List Pod :=
  exchangeSortFuel pods.length pods

/-- Modelled from the spec for comparison with `sortPodsByResourceUsage`:
a stable descending insertion by combined weight (a later element is
inserted after all equal-weight earlier elements, preserving original
relative order on ties). -/
def insertDescBy (x : Pod) : List Pod → List Pod
  | [] => [x]
  | y :: ys =>
    if getPodTotalResources y < getPodTotalResources x then x :: y :: ys
    else y :: insertDescBy x ys

/-- Modelled from the spec: the stable descending sort the claim
describes (descending by combined weight, ties in original order). -/
def stableSortDescSpec (pods : List Pod) : List Pod :=
  pods.foldl (fun acc x => insertDescBy x acc) []

/- Concrete fixtures for claim C4. -/

/-- C4 fixture pod with combined weight 3. -/
def c4PodA : Pod := ⟨"a", "default", [], [], none, "o", [⟨some ⟨3, 0⟩⟩], none⟩

/-- C4 fixture pod with combined weight 2 (first of the tie). -/
def c4PodB : Pod := ⟨"b", "default", [], [], none, "o", [⟨some ⟨2, 0⟩⟩], none⟩

/-- C4 fixture pod with combined weight 2 (second of the tie). -/
def c4PodC : Pod := ⟨"c", "default", [], [], none, "o", [⟨some ⟨2, 0⟩⟩], none⟩

/-- C4 fixture pod with combined weight 4. -/
def c4PodD : Pod := ⟨"d", "default", [], [], none, "o", [⟨some ⟨4, 0⟩⟩], none⟩

/-- C4 fixture list with weights [3, 2, 2, 4]. -/
def c4Pods : List Pod := [c4PodA, c4PodB, c4PodC, c4PodD]

/-- Embeds `getPodCPURequest`: the float64 of the summed cpu request
millicores of the pod containers. -/
def getPodCPURequest (pod : Pod) : ℚ := (podCPUMilli pod : ℚ)

/-- Embeds `getPodMemoryRequest`: the float64 of the summed memory
request bytes of the pod containers. -/
def getPodMemoryRequest (pod : Pod) : ℚ := (podMemBytes pod : ℚ)

/-- The score computed in the loop body of `findBestTargetNode`:
`(node.CPURequests + podCPU) + (node.MemoryRequests + podMemory)` — note
that the raw request quantities (millicores and bytes) are added to the
stored usage percentages. -/
def nodeScore (pod : Pod) (n : NodeResourceUsage) : ℚ :=
  (n.cpuRequests + getPodCPURequest pod) + (n.memoryRequests + getPodMemoryRequest pod)

/-- The loop of `findBestTargetNode`: iterate with the running best
(`bestNode == nil || score < bestScore` takes the new node).  The Go
function returns a pointer `&underutilizedNodes[i]`; the embedding
returns the index together with the node value it points at. -/
def fbtLoop (pod : Pod) : List NodeResourceUsage → Nat → Option (Nat × NodeResourceUsage) → ℚ →
    Option (Nat × NodeResourceUsage)
  | [], _, best, _ => best
  | n :: rest, i, best, bestScore =>
    if best = none ∨ nodeScore pod n < bestScore then
      fbtLoop pod rest (i + 1) (some (i, n)) (nodeScore pod n)
    else
      fbtLoop pod rest (i + 1) best bestScore

/-- Embeds `findBestTargetNode` (with `bestScore` starting at the zero
value 0.0, irrelevant because the nil check fires first). -/
def findBestTargetNode (nodes : List NodeResourceUsage) (pod : Pod) :
    Option (Nat × NodeResourceUsage) :=
  fbtLoop pod nodes 0 none 0

/-- Modelled from the spec for comparison with `nodeScore`: the claim
scores a destination by the sum of the two hypothetical post-placement
usages with the workload request expressed as an additive percentage of
the destination allocatable capacity (cpu millicores over `allocCpu`,
memory bytes over `allocMem`). -/
def nodeScoreSpec (pod : Pod) (n : NodeResourceUsage) (allocCpu allocMem : ℚ) : ℚ :=
  (n.cpuRequests + getPodCPURequest pod / allocCpu * 100) +
  (n.memoryRequests + getPodMemoryRequest pod / allocMem * 100)

/-- Modelled from the spec: minimum `nodeScoreSpec` with first-encountered
tie-break over destinations paired with their allocatable capacities. -/
def fbtSpecLoop (pod : Pod) : List (NodeResourceUsage × ℚ × ℚ) →
    Option NodeResourceUsage → ℚ → Option NodeResourceUsage
  | [], best, _ => best
  | (n, ac, am) :: rest, best, bestScore =>
    if best = none ∨ nodeScoreSpec pod n ac am < bestScore then
      fbtSpecLoop pod rest (some n) (nodeScoreSpec pod n ac am)
    else
      fbtSpecLoop pod rest best bestScore

/-- Modelled from the spec: the destination selection the claim
describes. -/
def findBestTargetNodeSpec (nodes : List (NodeResourceUsage × ℚ × ℚ)) (pod : Pod) :
    Option NodeResourceUsage :=
  fbtSpecLoop pod nodes none 0

/- Concrete fixtures for claim C5. -/

/-- C5 counterexample destination a: usage cpu 10% / mem 10%, allocatable
cpu 2000m. -/
def c5NodeA : NodeResourceUsage := ⟨"a", 10, 10, false, true, []⟩

/-- C5 counterexample destination b: usage cpu 30% / mem 30%, allocatable
cpu 100000m. -/
def c5NodeB : NodeResourceUsage := ⟨"b", 30, 30, false, true, []⟩

/-- C5 counterexample workload requesting 1000m cpu and no memory. -/
def c5Pod : Pod := ⟨"w5", "default", [], [], none, "o", [⟨some ⟨1000, 0⟩⟩], none⟩

/-- C5 example destination A of the claim: cpu 10% / mem 10%. -/
def c5ExA : NodeResourceUsage := ⟨"exa", 10, 10, false, true, []⟩

/-- C5 example destination B of the claim: cpu 30% / mem 30%. -/
def c5ExB : NodeResourceUsage := ⟨"exb", 30, 30, false, true, []⟩

/-- C5 example workload of the claim: 500m cpu, negligible memory. -/
def c5ExPod : Pod := ⟨"w5x", "default", [], [], none, "o", [⟨some ⟨500, 0⟩⟩], none⟩

/-- Whether a list of characters starts with the pattern. -/
def listStartsWith : List Char → List Char → Bool
  | [], _ => true
  | _ :: _, [] => false
  | p :: ps, c :: cs => decide (p = c) && listStartsWith ps cs

/-- Whether the pattern occurs contiguously inside the list. -/
def listOccursIn (pat : List Char) : List Char → Bool
  | [] => pat.isEmpty
  | c :: cs => listStartsWith pat (c :: cs) || listOccursIn pat cs

/-- Embeds `strings.Contains(s, sub)`. -/
def strContains (s sub : String) : Bool := listOccursIn sub.toList s.toList

/-- Embeds `handleEvictionError`: `none` models a nil return (the error
is swallowed), `some e` models the returned wrapped error text.  The
classification is by substring matching on the error text, tried in the
source order. -/
def handleEvictionError (msg : String) : Option String :=
  if strContains msg "PodDisruptionBudget" then none
  else if strContains msg "not found" then none
  else if strContains msg "forbidden" then some ("eviction forbidden: " ++ msg)
  else some ("eviction failed: " ++ msg)

/-- Embeds `intstr.IntOrString`: either the int32 field `IntVal` or the
string field `StrVal`. -/
inductive IntOrString where
  | int (v : Int)
  | str (s : String)
  deriving DecidableEq

/-- The digit run of `strconv.Atoi`: `none` models a parse error (any
non-digit character, or the empty run), in which case `Atoi` returns 0.
Out-of-range errors of the 64-bit parse are not modeled. -/
def digitsVal (cs : List Char) : Option Nat :=
  if cs = [] then none
  else if cs.all Char.isDigit then
    some (cs.foldl (fun acc c => acc * 10 + (c.toNat - 48)) 0)
  else none

/-- Embeds `strconv.Atoi` with the error discarded (the source reads
`i, _ := strconv.Atoi(...)`, so a malformed string such as a percentage
reads as 0). -/
def goAtoi (s : String) : Int :=
  match s.toList with
  | '+' :: rest =>
    match digitsVal rest with
    | some n => (n : Int)
    | none => 0
  | '-' :: rest =>
    match digitsVal rest with
    | some n => -(n : Int)
    | none => 0
  | cs =>
    match digitsVal cs with
    | some n => (n : Int)
    | none => 0

/-- Embeds `IntOrString.IntValue()`: the int field directly, else
`strconv.Atoi` of the string field with the error discarded. -/
def intOrStringIntValue : IntOrString → Int
  | .int v => v
  | .str s => goAtoi s

/-- The Go `int32(x)` conversion on the embedded integers (wraps modulo
2^32 into [-2^31, 2^31)). -/
def int32cast (x : Int) : Int := (x + 2147483648).emod 4294967296 - 2147483648

/-- Embeds `policyv1.PodDisruptionBudgetSpec` (`minAvailable = none`
models a nil MinAvailable pointer; the selector carries the MatchLabels
pairs of a non-nil LabelSelector — MatchExpressions are not used by any
claim and are not modeled). -/
structure PDBSpec where
  minAvailable : Option IntOrString
  selector : Option (List (String × String))
  deriving DecidableEq

/-- Embeds `policyv1.PodDisruptionBudgetStatus.CurrentHealthy` (int32). -/
structure PDBStatus where
  currentHealthy : Int
  deriving DecidableEq

/-- Embeds `policyv1.PodDisruptionBudget`. -/
structure PodDisruptionBudget where
  name : String
  ns : String
  spec : PDBSpec
  status : PDBStatus
  deriving DecidableEq

/-- A MatchLabels selector matches iff every pair is present in the pod
labels (the empty selector matches everything, as
`LabelSelectorAsSelector` yields the everything selector for it). -/
def selectorMatches (sel : List (String × String)) (podLabels : List (String × String)) : Bool :=
  sel.all (fun kv => decide (mapLookup kv.1 podLabels = some kv.2))

/-- Embeds `podMatchesPDB`: nil selector never matches, else the label
selector is applied to the pod labels. -/
def podMatchesPDB (pod : Pod) (pdb : PodDisruptionBudget) : Bool :=
  match pdb.spec.selector with
  | none => false
  | some sel => selectorMatches sel pod.labels

/-- Outcome of the PDB check: `panicked` models the nil-pointer
dereference of `pdb.Spec.MinAvailable.IntValue()` on a matching budget
with nil MinAvailable; `violated` models the returned error. -/
inductive PDBCheckResult where
  | panicked
  | violated (name : String)
  | ok
  deriving DecidableEq

/-- The loop of `checkPodDisruptionBudget` over the budgets of the pod
namespace: for each matching budget, dereference MinAvailable (panic if
nil) and fail if `CurrentHealthy <= int32(MinAvailable.IntValue())`. -/
def checkPDBLoop (pod : Pod) : List PodDisruptionBudget → PDBCheckResult
  | [] => .ok
  | pdb :: rest =>
    if podMatchesPDB pod pdb then
      match pdb.spec.minAvailable with
      | none => .panicked
      | some v =>
        if pdb.status.currentHealthy ≤ int32cast (intOrStringIntValue v) then .violated pdb.name
        else checkPDBLoop pod rest
    else checkPDBLoop pod rest

/-- Embeds `checkPodDisruptionBudget`: the budget list is first restricted
to the pod namespace (`client.InNamespace(pod.Namespace)`). -/
def checkPodDisruptionBudget (pdbs : List PodDisruptionBudget) (pod : Pod) : PDBCheckResult :=
  checkPDBLoop pod (pdbs.filter (fun pdb => decide (pdb.ns = pod.ns)))

/-- Outcome of `validateEviction`. -/
inductive ValidationResult where
  | panicked
  | invalid
  | valid
  deriving DecidableEq

/-- Embeds `validateEviction`: evictability, termination and PDB checks
in source order (`invalid` models a non-nil returned error, swallowed by
`evictPod`). -/
def validateEviction (pdbs : List PodDisruptionBudget) (pod : Pod) : ValidationResult :=
  if isPodEvictable pod = false then .invalid
  else if pod.deletionTimestamp.isSome then .invalid
  else
    match checkPodDisruptionBudget pdbs pod with
    | .panicked => .panicked
    | .violated _ => .invalid
    | .ok => .valid

/-- The outcome of the external eviction API call
(`r.Client.SubResource("eviction").Create`), abstracted as an oracle:
`err m` models a non-nil error whose text is `m`. -/
inductive ApiResult where
  | ok
  | err (msg : String)
  deriving DecidableEq

/-- The outcome of one `evictPod` call.  `skipped` models the nil return
after a failed validation (no eviction request issued); `evicted` models
a successful API call; `apiNonFatal` a swallowed API error (nil return);
`apiFatal m` a returned error with text `m`; `panicked` the nil
MinAvailable panic unwinding out of the call. -/
inductive EvictResult where
  | panicked
  | skipped
  | evicted
  | apiNonFatal (msg : String)
  | apiFatal (msg : String)
  deriving DecidableEq

/-- The error value `evictPod` returns to its caller (`none` = nil). -/
def evictErr : EvictResult → Option String
  | .apiFatal e => some e
  | _ => none

/-- Whether an eviction API request was issued during the call. -/
def evictRequestIssued : EvictResult → Bool
  | .evicted => true
  | .apiNonFatal _ => true
  | .apiFatal _ => true
  | _ => false

/-- Whether the call returned normally with a nil error (neither a panic
nor a returned error). -/
def evictReturnsNil (r : EvictResult) : Bool :=
  decide (r ≠ EvictResult.panicked) && (evictErr r).isNone

/-- Embeds `evictPod`: validate (skipping on failure with a nil return),
then issue the eviction API request and classify any API error with
`handleEvictionError`.  The tracking-event creation that follows a
successful eviction has no effect observed by any claim and is not
modeled. -/
def evictPod (pdbs : List PodDisruptionBudget) (api : ApiResult) (pod : Pod) : EvictResult :=
  match validateEviction pdbs pod with
  | .panicked => .panicked
  | .invalid => .skipped
  | .valid =>
    match api with
    | .ok => .evicted
    | .err m =>
      match handleEvictionError m with
      | none => .apiNonFatal m
      | some e => .apiFatal e

/-- One observable step of the rebalancing loop: either no destination
was found for the pod, or an eviction was attempted against the
destination at `targetIdx` with the given result; `updated` records
whether the in-memory snapshot of the destination was mutated. -/
inductive SweepStep where
  | noTarget (pod : Pod)
  | attempt (pod : Pod) (targetIdx : Nat) (result : EvictResult) (updated : Bool)
  deriving DecidableEq

/-- The outcome of `performRebalancing`: whether a panic unwound the
sweep, the final in-memory destination snapshots, the trace of steps in
execution order, and the error value returned to the caller (`none` =
nil; the source function ends in `return nil` and returns no other
value). -/
structure SweepResult where
  panicked : Bool
  targets : List NodeResourceUsage
  trace : List SweepStep
  err : Option String
  deriving DecidableEq

/-- The per-pod loop of `performRebalancing` for one overloaded node:
find a destination (continue if none), call `evictPod` (a panic unwinds;
a non-nil error is logged and the loop continues without touching the
snapshot), and after a nil return add the raw pod requests to the
destination snapshot in place and break if the (stale, never recomputed)
`IsUnderutilized` field is false. -/
def processPods (pdbs : List PodDisruptionBudget) (api : Pod → ApiResult) :
    List Pod → List NodeResourceUsage → SweepResult
  | [], targets => ⟨false, targets, [], none⟩
  | pod :: rest, targets =>
    match findBestTargetNode targets pod with
    | none =>
      let k := processPods pdbs api rest targets
      ⟨k.panicked, k.targets, SweepStep.noTarget pod :: k.trace, k.err⟩
    | some (i, n) =>
      let res := evictPod pdbs (api pod) pod
      if res = EvictResult.panicked then
        ⟨true, targets, [SweepStep.attempt pod i res false], none⟩
      else if (evictErr res).isSome then
        let k := processPods pdbs api rest targets
        ⟨k.panicked, k.targets, SweepStep.attempt pod i res false :: k.trace, k.err⟩
      else
        let n2 : NodeResourceUsage :=
          { n with
            cpuRequests := n.cpuRequests + getPodCPURequest pod
            memoryRequests := n.memoryRequests + getPodMemoryRequest pod }
        let targets2 := targets.set i n2
        if n2.isUnderutilized = false then
          ⟨false, targets2, [SweepStep.attempt pod i res true], none⟩
        else
          let k := processPods pdbs api rest targets2
          ⟨k.panicked, k.targets, SweepStep.attempt pod i res true :: k.trace, k.err⟩

/-- The outer loop of `performRebalancing` over the overloaded nodes:
each node contributes its evictable pods in sorted order, against the
shared destination list threaded through the loop. -/
def rebalanceLoop (pdbs : List PodDisruptionBudget) (api : Pod → ApiResult) :
    List NodeResourceUsage → List NodeResourceUsage → SweepResult
  | [], targets => ⟨false, targets, [], none⟩
  | o :: os, targets =>
    let r1 := processPods pdbs api (sortPodsByResourceUsage (getEvictablePods o.pods)) targets
    if r1.panicked then ⟨true, r1.targets, r1.trace, none⟩
    else
      let r2 := rebalanceLoop pdbs api os r1.targets
      ⟨r2.panicked, r2.targets, r1.trace ++ r2.trace, r2.err⟩

/-- Embeds `performRebalancing` (which ends in `return nil`). -/
def performRebalancing (pdbs : List PodDisruptionBudget) (api : Pod → ApiResult)
    (overloadedNodes underutilizedNodes : List NodeResourceUsage) : SweepResult :=
  rebalanceLoop pdbs api overloadedNodes underutilizedNodes

/- Concrete fixtures for claims C6 to C10. -/

/-- C6 fixture pod: evictable, 500m cpu, resident on node o. -/
def c6Pod : Pod := ⟨"w6", "default", [], [], none, "o", [⟨some ⟨500, 0⟩⟩], none⟩

/-- C6 fixture overloaded node hosting the pod. -/
def c6Over : NodeResourceUsage := ⟨"o", 70, 10, true, false, [c6Pod]⟩

/-- C6 fixture destination at cpu 10% / mem 10%. -/
def c6Target : NodeResourceUsage := ⟨"t", 10, 10, false, true, []⟩

/-- C7 fixture pod 1: 2000m cpu (largest, relocated first). -/
def c7Pod1 : Pod := ⟨"p1", "default", [], [], none, "o", [⟨some ⟨2000, 0⟩⟩], none⟩

/-- C7 fixture pod 2: 100m cpu (relocated second). -/
def c7Pod2 : Pod := ⟨"p2", "default", [], [], none, "o", [⟨some ⟨100, 0⟩⟩], none⟩

/-- C7 fixture overloaded node hosting both pods. -/
def c7Over : NodeResourceUsage := ⟨"o", 70, 10, true, false, [c7Pod1, c7Pod2]⟩

/-- C7 fixture destination at cpu 30% / mem 30%, classified
Underutilized when the snapshot was built. -/
def c7Target : NodeResourceUsage := ⟨"t", 30, 30, false, true, []⟩

/-- C8 fixture pod with label app=web, resident on node o. -/
def c8Pod : Pod := ⟨"w8", "default", [("app", "web")], [], none, "o", [⟨some ⟨500, 0⟩⟩], none⟩

/-- C8 fixture budget matching the pod with minAvailable 2 and
currentHealthy 2 (zero disruptions allowed). -/
def c8PdbBlock : PodDisruptionBudget :=
  ⟨"pdb8", "default", ⟨some (IntOrString.int 2), some [("app", "web")]⟩, ⟨2⟩⟩

/-- C8 fixture budget matching the pod with nil minAvailable. -/
def c8PdbNil : PodDisruptionBudget :=
  ⟨"pdbnil", "default", ⟨none, some [("app", "web")]⟩, ⟨5⟩⟩

/-- C8 fixture overloaded node hosting the pod. -/
def c8Over : NodeResourceUsage := ⟨"o", 70, 10, true, false, [c8Pod]⟩

/-- C8 fixture destination. -/
def c8Target : NodeResourceUsage := ⟨"t", 10, 10, false, true, []⟩

/-- C9 fixture pod. -/
def c9Pod : Pod := ⟨"w9", "default", [], [], none, "o", [⟨some ⟨500, 0⟩⟩], none⟩

/-- C9 fixture overloaded node hosting the pod. -/
def c9Over : NodeResourceUsage := ⟨"o", 70, 10, true, false, [c9Pod]⟩

/-- C9 fixture destination. -/
def c9Target : NodeResourceUsage := ⟨"t", 10, 10, false, true, []⟩

/-- C10 fixture pod with label app=db. -/
def c10Pod : Pod := ⟨"w10", "default", [("app", "db")], [], none, "o", [⟨some ⟨100, 0⟩⟩], none⟩

/-- C10 fixture budget matching the pod with nil minAvailable. -/
def c10PdbNil : PodDisruptionBudget :=
  ⟨"pnil", "default", ⟨none, some [("app", "db")]⟩, ⟨5⟩⟩

/-- C10 fixture budget with a percentage minAvailable and
currentHealthy 2. -/
def c10PdbPct : PodDisruptionBudget :=
  ⟨"ppct", "default", ⟨some (IntOrString.str "50%"), some [("app", "db")]⟩, ⟨2⟩⟩

/-- C10 fixture budget with integer minAvailable 1 and currentHealthy 5
(disruptions allowed). -/
def c10PdbSet : PodDisruptionBudget :=
  ⟨"pset", "default", ⟨some (IntOrString.int 1), some [("app", "db")]⟩, ⟨5⟩⟩

/-- C10 fixture overloaded node hosting the pod. -/
def c10Over : NodeResourceUsage := ⟨"o", 70, 10, true, false, [c10Pod]⟩

/-- C10 fixture destination. -/
def c10Target : NodeResourceUsage := ⟨"t", 10, 10, false, true, []⟩

/- ===================== THEOREMS ===================== -/

/-- Helper: `math.Min(x, 100)` keeps a non-negative value inside [0,100]. -/
theorem mathMin_bounds (x : ℚ) (hx : 0 ≤ x) : 0 ≤ mathMin x 100 ∧ mathMin x 100 ≤ 100 := by
  unfold mathMin
  split_ifs with h
  · exact ⟨hx, h⟩
  · norm_num

/-- Claim C1: for every machine snapshot produced by the analyzer, the
classifier marks the machine Overloaded iff cpu% exceeds 60 or mem%
exceeds 60, marks it Underutilized iff cpu% is below 40 and mem% is
below 40; a machine at cpu 30 / mem 50 is neither, and no machine is
both Overloaded and Underutilized. -/
theorem c1_classification (podList : List Pod) (nodes : List Node) (u : NodeResourceUsage)
    (hu : u ∈ analyzeNodeResourceUsage podList nodes) :
    (u.isOverloaded = true ↔ (CPUThresholdHigh < u.cpuRequests ∨ MemoryThresholdHigh < u.memoryRequests)) ∧
    (u.isUnderutilized = true ↔ (u.cpuRequests < CPUThresholdLow ∧ u.memoryRequests < MemoryThresholdLow)) ∧
    (u.cpuRequests = 30 → u.memoryRequests = 50 → u.isOverloaded = false ∧ u.isUnderutilized = false) ∧
    ¬(u.isOverloaded = true ∧ u.isUnderutilized = true) := by
  obtain ⟨node, -, rfl⟩ := List.mem_map.mp hu
  have hov : (analyzeNode podList node).isOverloaded = true ↔
      (CPUThresholdHigh < (analyzeNode podList node).cpuRequests ∨
       MemoryThresholdHigh < (analyzeNode podList node).memoryRequests) := by
    simp [analyzeNode]
  have hun : (analyzeNode podList node).isUnderutilized = true ↔
      ((analyzeNode podList node).cpuRequests < CPUThresholdLow ∧
       (analyzeNode podList node).memoryRequests < MemoryThresholdLow) := by
    simp [analyzeNode]
  refine ⟨hov, hun, ?_, ?_⟩
  · intro h30 h50
    constructor
    · rw [Bool.eq_false_iff]
      intro hov2
      rcases hov.mp hov2 with h | h
      · rw [h30] at h; norm_num [CPUThresholdHigh] at h
      · rw [h50] at h; norm_num [MemoryThresholdHigh] at h
    · rw [Bool.eq_false_iff]
      intro hun2
      rcases hun.mp hun2 with ⟨-, h⟩
      rw [h50] at h; norm_num [MemoryThresholdLow] at h
  · rintro ⟨hov2, hun2⟩
    rcases hov.mp hov2 with h | h <;> rcases hun.mp hun2 with ⟨hc, hm⟩
    · have : CPUThresholdHigh < CPUThresholdLow := lt_trans h hc
      norm_num [CPUThresholdHigh, CPUThresholdLow] at this
    · have : MemoryThresholdHigh < MemoryThresholdLow := lt_trans h hm
      norm_num [MemoryThresholdHigh, MemoryThresholdLow] at this

/-- Witness for C1 at a concrete snapshot with cpu% = 30 and mem% = 50. -/
theorem c1_classification_witness :
    (analyzeNode [c1Pod] c1Node).isOverloaded = false ∧
    (analyzeNode [c1Pod] c1Node).isUnderutilized = false := by
  have h := c1_classification [c1Pod] [c1Node] (analyzeNode [c1Pod] c1Node)
    (by simp [analyzeNodeResourceUsage])
  exact h.2.2.1 (by with_unfolding_all decide) (by with_unfolding_all decide)

/-- Claim C2 (corrected): the computed usage always lies in [0,100]; when
the capacity quantity of a dimension is non-zero the code equals the spec
formula applied to the pods that pass the evictability filter (not to all
resident workloads), with the zero-allocatable case reporting 0; and when
the capacity quantity is zero the code reports 0 as well (a second
deviation from the plain formula, beyond the zero-allocatable case the
claim allows). -/
theorem c2_usage_amended (node : Node) (podList : List Pod) :
    (0 ≤ calculateCPURequests node podList ∧ calculateCPURequests node podList ≤ 100 ∧
     0 ≤ calculateMemoryRequests node podList ∧ calculateMemoryRequests node podList ≤ 100) ∧
    (node.capacityCpu ≠ 0 →
      calculateCPURequests node podList = cpuUsageSpec node (getPodsOnNode podList node.name)) ∧
    (node.capacityCpu = 0 → calculateCPURequests node podList = 0) ∧
    (node.capacityMem ≠ 0 →
      calculateMemoryRequests node podList = memUsageSpec node (getPodsOnNode podList node.name)) ∧
    (node.capacityMem = 0 → calculateMemoryRequests node podList = 0) := by
  have hc : 0 ≤ (totalCPUMilli (getPodsOnNode podList node.name) : ℚ) / (node.allocatableCpu : ℚ) * 100 := by
    positivity
  have hm : 0 ≤ (totalMemBytes (getPodsOnNode podList node.name) : ℚ) / (node.allocatableMem : ℚ) * 100 := by
    positivity
  refine ⟨⟨?_, ?_, ?_, ?_⟩, ?_, ?_, ?_, ?_⟩
  · unfold calculateCPURequests
    split_ifs with h1 h2
    · norm_num
    · norm_num
    · exact (mathMin_bounds _ hc).1
  · unfold calculateCPURequests
    split_ifs with h1 h2
    · norm_num
    · norm_num
    · exact (mathMin_bounds _ hc).2
  · unfold calculateMemoryRequests
    split_ifs with h1 h2
    · norm_num
    · norm_num
    · exact (mathMin_bounds _ hm).1
  · unfold calculateMemoryRequests
    split_ifs with h1 h2
    · norm_num
    · norm_num
    · exact (mathMin_bounds _ hm).2
  · intro h
    simp [calculateCPURequests, cpuUsageSpec, h]
  · intro h
    simp [calculateCPURequests, h]
  · intro h
    simp [calculateMemoryRequests, memUsageSpec, h]
  · intro h
    simp [calculateMemoryRequests, h]

/-- Witness for C2 (corrected) at a concrete node with non-zero capacity. -/
theorem c2_usage_amended_witness :
    calculateCPURequests c2NodeK [c2PodKubeSystem] =
      cpuUsageSpec c2NodeK (getPodsOnNode [c2PodKubeSystem] c2NodeK.name) :=
  (c2_usage_amended c2NodeK [c2PodKubeSystem]).2.1 (by decide)

/-- Counterexample for C2 as stated: a node whose cpu capacity quantity
is zero but whose allocatable is 4000m reports 0 where the spec formula
over its resident workloads gives 25 (so zero allocatable is not the only
deviating input); and a node hosting only a kube-system pod reports 0
where the formula over all resident workloads gives 50 (the code sums
only workloads passing the evictability filter). -/
theorem c2_usage_counterexample :
    calculateCPURequests c2NodeZeroCap [c2PodOnZ] = 0 ∧
    c2NodeZeroCap.allocatableCpu ≠ 0 ∧
    cpuUsageSpec c2NodeZeroCap (residentPods [c2PodOnZ] c2NodeZeroCap.name) = 25 ∧
    calculateCPURequests c2NodeK [c2PodKubeSystem] = 0 ∧
    c2NodeK.capacityCpu ≠ 0 ∧ c2NodeK.allocatableCpu ≠ 0 ∧
    cpuUsageSpec c2NodeK (residentPods [c2PodKubeSystem] c2NodeK.name) = 50 := by
  with_unfolding_all decide

/-- Claim C3: a workload is evictable iff it is not terminating and then
either the override is set to a value that parses to true, or the
override is unset and the workload is neither in kube-system nor carries
a required node-affinity constraint.  In particular a terminating pod is
never evictable (even with the override set to true) and a pod whose
override parses to false is never evictable. -/
theorem c3_evictable_iff (pod : Pod) :
    isPodEvictable pod = true ↔
      (pod.deletionTimestamp = none ∧
        ((∃ v, mapLookup evictableKey pod.annotations = some v ∧ goParseBool v = some true) ∨
         (mapLookup evictableKey pod.annotations = none ∧ pod.ns ≠ "kube-system" ∧
          hasRequiredNodeAffinity pod = false))) := by
  unfold isPodEvictable
  cases hd : pod.deletionTimestamp with
  | some t => simp
  | none =>
    simp only [Option.isSome_none, Bool.false_eq_true, if_false]
    cases hl : mapLookup evictableKey pod.annotations with
    | some v =>
      cases hb : goParseBool v with
      | none => simp [hb]
      | some b => cases b <;> simp [hb]
    | none =>
      by_cases hns : pod.ns = "kube-system"
      · simp [hns]
      · by_cases haff : hasRequiredNodeAffinity pod = true
        · simp [hns, haff]
        · simp [hns, haff, Bool.eq_false_iff.mpr haff]

/-- Helper: the inner slot walk preserves the number of higher slots. -/
theorem exchangePass_length (ys : List Pod) : ∀ x, (exchangePass x ys).2.length = ys.length := by
  induction ys with
  | nil => intro x; rfl
  | cons y ys ih =>
    intro x
    unfold exchangePass
    split_ifs <;> simp [ih]

/-- Helper: the inner slot walk permutes the carried value and the slots. -/
theorem exchangePass_perm (ys : List Pod) :
    ∀ x, List.Perm ((exchangePass x ys).1 :: (exchangePass x ys).2) (x :: ys) := by
  induction ys with
  | nil => intro x; rfl
  | cons y ys ih =>
    intro x
    unfold exchangePass
    split_ifs with h
    · exact (List.Perm.swap x _ _).trans ((ih y).cons x)
    · exact ((List.Perm.swap y _ _).trans ((ih x).cons y)).trans (List.Perm.swap x y ys)

/-- Helper: the value finally kept in the outer slot dominates the carried
value and everything left in the higher slots. -/
theorem exchangePass_le (ys : List Pod) :
    ∀ x, getPodTotalResources x ≤ getPodTotalResources (exchangePass x ys).1 ∧
      ∀ p ∈ (exchangePass x ys).2, getPodTotalResources p ≤ getPodTotalResources (exchangePass x ys).1 := by
  induction ys with
  | nil => exact fun x => ⟨le_refl _, by simp [exchangePass]⟩
  | cons y ys ih =>
    intro x
    unfold exchangePass
    split_ifs with h
    · obtain ⟨h1, h2⟩ := ih y
      refine ⟨le_of_lt (lt_of_lt_of_le h h1), ?_⟩
      intro p hp
      simp only [List.mem_cons] at hp
      rcases hp with rfl | hp
      · exact le_of_lt (lt_of_lt_of_le h h1)
      · exact h2 p hp
    · obtain ⟨h1, h2⟩ := ih x
      refine ⟨h1, ?_⟩
      intro p hp
      simp only [List.mem_cons] at hp
      rcases hp with rfl | hp
      · exact le_trans (Nat.le_of_not_lt h) h1
      · exact h2 p hp

/-- Helper: the exchange sort with enough fuel permutes its input. -/
theorem exchangeSortFuel_perm : ∀ (n : Nat) (l : List Pod), l.length ≤ n → List.Perm (exchangeSortFuel n l) l := by
  intro n
  induction n with
  | zero =>
    intro l h
    have : l = [] := List.length_eq_zero.mp (Nat.le_zero.mp h)
    subst this
    rfl
  | succ n ih =>
    intro l h
    cases l with
    | nil => rfl
    | cons x xs =>
      have hlen : (exchangePass x xs).2.length ≤ n := by
        rw [exchangePass_length]
        simpa using h
      exact ((ih _ hlen).cons _).trans (exchangePass_perm xs x)

/-- Helper: the exchange sort with enough fuel is descending by combined
weight. -/
theorem exchangeSortFuel_sorted : ∀ (n : Nat) (l : List Pod), l.length ≤ n →
    (exchangeSortFuel n l).Pairwise
      (fun a b => getPodTotalResources b ≤ getPodTotalResources a) := by
  intro n
  induction n with
  | zero =>
    intro l h
    have : l = [] := List.length_eq_zero.mp (Nat.le_zero.mp h)
    subst this
    simp [exchangeSortFuel]
  | succ n ih =>
    intro l h
    cases l with
    | nil => simp [exchangeSortFuel]
    | cons x xs =>
      have hlen : (exchangePass x xs).2.length ≤ n := by
        rw [exchangePass_length]
        simpa using h
      show ((exchangePass x xs).1 :: exchangeSortFuel n (exchangePass x xs).2).Pairwise _
      rw [List.pairwise_cons]
      refine ⟨?_, ih _ hlen⟩
      intro b hb
      exact (exchangePass_le xs x).2 b ((exchangeSortFuel_perm n _ hlen).subset hb)

/-- Claim C4 (corrected): the candidate sort is a permutation of its
input in descending order of the combined weight (cpu millicores plus
memory bytes divided by 1024*1024); it is however not stable on ties. -/
theorem c4_sort_amended (pods : List Pod) :
    List.Perm (sortPodsByResourceUsage pods) pods ∧
    (sortPodsByResourceUsage pods).Pairwise
      (fun a b => getPodTotalResources b ≤ getPodTotalResources a) :=
  ⟨exchangeSortFuel_perm _ _ (le_refl _), exchangeSortFuel_sorted _ _ (le_refl _)⟩

/-- Counterexample for C4 as stated: on weights [3, 2, 2, 4] the two
equal-weight pods leave the sort in the opposite of their original
relative order, differing from the stable descending order the claim
requires. -/
theorem c4_sort_counterexample :
    sortPodsByResourceUsage c4Pods = [c4PodD, c4PodA, c4PodC, c4PodB] ∧
    stableSortDescSpec c4Pods = [c4PodD, c4PodA, c4PodB, c4PodC] ∧
    getPodTotalResources c4PodB = getPodTotalResources c4PodC ∧
    sortPodsByResourceUsage c4Pods ≠ stableSortDescSpec c4Pods := by
  decide

/-- Helper: invariant of the `findBestTargetNode` loop.  Starting from a
running best `(k, b)` whose stored score is `nodeScore pod b`, the loop
returns the running best or the first element of the remainder that
strictly improves on every earlier candidate (elements are replaced only
on strict improvement, so the first occurrence of the minimum wins). -/
theorem fbtLoop_spec (pod : Pod) (rest : List NodeResourceUsage) :
    ∀ (i k : Nat) (b : NodeResourceUsage),
    ∃ j n, fbtLoop pod rest i (some (k, b)) (nodeScore pod b) = some (j, n) ∧
      nodeScore pod n ≤ nodeScore pod b ∧
      (∀ m ∈ rest, nodeScore pod n ≤ nodeScore pod m) ∧
      ((j = k ∧ n = b) ∨
        ∃ t, j = i + t ∧ rest.get? t = some n ∧ nodeScore pod n < nodeScore pod b ∧
          ∀ s m, s < t → rest.get? s = some m → nodeScore pod n < nodeScore pod m) := by
  induction rest with
  | nil =>
    intro i k b
    exact ⟨k, b, rfl, le_refl _, by simp, Or.inl ⟨rfl, rfl⟩⟩
  | cons y rest ih =>
    intro i k b
    unfold fbtLoop
    by_cases h : nodeScore pod y < nodeScore pod b
    · rw [if_pos (Or.inr h)]
      obtain ⟨j, n, heq, hle, hall, hcase⟩ := ih (i + 1) i y
      refine ⟨j, n, heq, le_of_lt (lt_of_le_of_lt hle h), ?_, ?_⟩
      · intro m hm
        rcases List.mem_cons.mp hm with rfl | hm
        · exact hle
        · exact hall m hm
      · rcases hcase with ⟨rfl, rfl⟩ | ⟨t, rfl, hget, hlt, hbefore⟩
        · refine Or.inr ⟨0, by omega, by simp, h, ?_⟩
          intro s m hs hg
          exact absurd hs (Nat.not_lt_zero s)
        · refine Or.inr ⟨t + 1, by omega, by simpa using hget, lt_trans hlt h, ?_⟩
          intro s m hs hg
          cases s with
          | zero =>
            have hm : y = m := by simpa using hg
            exact hm ▸ hlt
          | succ s =>
            exact hbefore s m (by omega) (by simpa using hg)
    · rw [if_neg (by push_neg; exact ⟨by simp, not_lt.mp h⟩)]
      obtain ⟨j, n, heq, hle, hall, hcase⟩ := ih (i + 1) k b
      refine ⟨j, n, heq, hle, ?_, ?_⟩
      · intro m hm
        rcases List.mem_cons.mp hm with rfl | hm
        · exact le_trans hle (not_lt.mp h)
        · exact hall m hm
      · rcases hcase with hl | ⟨t, rfl, hget, hlt, hbefore⟩
        · exact Or.inl hl
        · refine Or.inr ⟨t + 1, by omega, by simpa using hget, hlt, ?_⟩
          intro s m hs hg
          cases s with
          | zero =>
            have hm : y = m := by simpa using hg
            exact hm ▸ lt_of_lt_of_le hlt (not_lt.mp h)
          | succ s =>
            exact hbefore s m (by omega) (by simpa using hg)

/-- Helper: on a non-empty destination list `findBestTargetNode` returns
the position and value of the first destination attaining the minimal
code score. -/
theorem fbt_spec (nodes : List NodeResourceUsage) (pod : Pod) (hne : nodes ≠ []) :
    ∃ i n, findBestTargetNode nodes pod = some (i, n) ∧
      nodes.get? i = some n ∧
      ∀ j m, nodes.get? j = some m →
        nodeScore pod n ≤ nodeScore pod m ∧ (j < i → nodeScore pod n < nodeScore pod m) := by
  cases nodes with
  | nil => exact absurd rfl hne
  | cons x xs =>
    unfold findBestTargetNode fbtLoop
    rw [if_pos (Or.inl rfl)]
    obtain ⟨j, n, heq, hle, hall, hcase⟩ := fbtLoop_spec pod xs 1 0 x
    rcases hcase with ⟨rfl, rfl⟩ | ⟨t, rfl, hget, hlt, hbefore⟩
    · refine ⟨0, n, heq, by simp, ?_⟩
      intro j m hj
      cases j with
      | zero =>
        have hm : n = m := by simpa using hj
        exact ⟨hm ▸ le_refl _, fun hc => absurd hc (lt_irrefl 0)⟩
      | succ j =>
        have hs : xs.get? j = some m := by simpa using hj
        exact ⟨hall m (List.get?_mem hs), fun hc => absurd hc (Nat.not_lt_zero _)⟩
    · refine ⟨1 + t, n, heq, by rw [Nat.add_comm]; simpa using hget, ?_⟩
      intro j2 m hj
      cases j2 with
      | zero =>
        have hm : x = m := by simpa using hj
        exact ⟨le_of_lt (hm ▸ hlt), fun _ => hm ▸ hlt⟩
      | succ s =>
        have hs : xs.get? s = some m := by simpa using hj
        refine ⟨hall m (List.get?_mem hs), ?_⟩
        intro hlt2
        exact hbefore s m (by omega) hs

/-- Claim C5 (corrected): for every candidate workload and non-empty
destination list the scorer returns the first destination minimizing the
score (current usage plus the RAW request quantities per dimension,
millicores and bytes added to percentages, summed over both dimensions),
ties broken in favor of the first-encountered destination; on the claim
example (A at 10/10, B at 30/30, workload 500m cpu) it selects A. -/
theorem c5_scorer_amended :
    (∀ (nodes : List NodeResourceUsage) (pod : Pod), nodes ≠ [] →
      ∃ i n, findBestTargetNode nodes pod = some (i, n) ∧
        nodes.get? i = some n ∧
        ∀ j m, nodes.get? j = some m →
          nodeScore pod n ≤ nodeScore pod m ∧ (j < i → nodeScore pod n < nodeScore pod m)) ∧
    (findBestTargetNode [c5ExA, c5ExB] c5ExPod).map (fun p => p.2.nodeName) = some "exa" := by
  constructor
  · exact fun nodes pod hne => fbt_spec nodes pod hne
  · with_unfolding_all decide

/-- Witness for C5 (corrected) on a concrete singleton destination list. -/
theorem c5_scorer_amended_witness :
    ∃ i n, findBestTargetNode [c5ExA] c5ExPod = some (i, n) ∧
      [c5ExA].get? i = some n ∧
      ∀ j m, [c5ExA].get? j = some m →
        nodeScore c5ExPod n ≤ nodeScore c5ExPod m ∧
        (j < i → nodeScore c5ExPod n < nodeScore c5ExPod m) :=
  c5_scorer_amended.1 [c5ExA] c5ExPod (by decide)

/-- Counterexample for C5 as stated: with destinations of different
allocatable capacities the code (which adds raw quantities) picks a, but
the claim formula (additive percentages of each destination allocatable)
picks b. -/
theorem c5_scorer_counterexample :
    (findBestTargetNode [c5NodeA, c5NodeB] c5Pod).map (fun p => p.2.nodeName) = some "a" ∧
    (findBestTargetNodeSpec [(c5NodeA, 2000, 1), (c5NodeB, 100000, 1)] c5Pod).map
      (fun n => n.nodeName) = some "b" ∧
    ("a" : String) ≠ "b" := by
  with_unfolding_all decide

/-- Helper: in the inner rebalancing loop, the snapshot-update flag of a
recorded attempt is set exactly when the eviction call returned a nil
error without panicking. -/
theorem processPods_updated_iff (pdbs : List PodDisruptionBudget) (api : Pod → ApiResult) :
    ∀ (pods : List Pod) (targets : List NodeResourceUsage) (p : Pod) (i : Nat)
      (r : EvictResult) (u : Bool),
      SweepStep.attempt p i r u ∈ (processPods pdbs api pods targets).trace →
      u = evictReturnsNil r := by
  intro pods
  induction pods with
  | nil =>
    intro targets p i r u h
    simp [processPods] at h
  | cons pod rest ih =>
    intro targets p i r u h
    rw [processPods] at h
    cases hf : findBestTargetNode targets pod with
    | none =>
      rw [hf] at h
      simp only [List.mem_cons] at h
      rcases h with h | h
      · simp at h
      · exact ih targets p i r u h
    | some pr =>
      obtain ⟨j, n⟩ := pr
      rw [hf] at h
      cases hres : evictPod pdbs (api pod) pod <;> rw [hres] at h <;>
        simp only [reduceCtorEq, reduceIte, if_true, if_false, decide_True, decide_False,
          evictErr, Option.isSome_some, Option.isSome_none, Bool.false_eq_true] at h
      · -- panicked
        simp only [List.mem_cons, SweepStep.attempt.injEq] at h
        rcases h with ⟨-, -, rfl, rfl⟩ | h
        · rfl
        · simp at h
      · -- skipped
        split_ifs at h with hb <;>
          simp only [List.mem_cons, SweepStep.attempt.injEq] at h <;>
          [rcases h with ⟨-, -, rfl, rfl⟩ | h; rcases h with ⟨-, -, rfl, rfl⟩ | h]
        · rfl
        · simp at h
        · rfl
        · exact ih _ p i r u h
      · -- evicted
        split_ifs at h with hb <;>
          simp only [List.mem_cons, SweepStep.attempt.injEq] at h <;>
          [rcases h with ⟨-, -, rfl, rfl⟩ | h; rcases h with ⟨-, -, rfl, rfl⟩ | h]
        · rfl
        · simp at h
        · rfl
        · exact ih _ p i r u h
      · -- apiNonFatal
        split_ifs at h with hb <;>
          simp only [List.mem_cons, SweepStep.attempt.injEq] at h <;>
          [rcases h with ⟨-, -, rfl, rfl⟩ | h; rcases h with ⟨-, -, rfl, rfl⟩ | h]
        · rfl
        · simp at h
        · rfl
        · exact ih _ p i r u h
      · -- apiFatal
        simp only [List.mem_cons, SweepStep.attempt.injEq] at h
        rcases h with ⟨-, -, rfl, rfl⟩ | h
        · rfl
        · exact ih targets p i r u h

/-- Helper: the update flag property lifted to the whole sweep. -/
theorem rebalanceLoop_updated_iff (pdbs : List PodDisruptionBudget) (api : Pod → ApiResult) :
    ∀ (ov targets : List NodeResourceUsage) (p : Pod) (i : Nat) (r : EvictResult) (u : Bool),
      SweepStep.attempt p i r u ∈ (rebalanceLoop pdbs api ov targets).trace →
      u = evictReturnsNil r := by
  intro ov
  induction ov with
  | nil =>
    intro targets p i r u h
    simp [rebalanceLoop] at h
  | cons o os ih =>
    intro targets p i r u h
    rw [rebalanceLoop] at h
    split_ifs at h
    · exact processPods_updated_iff pdbs api _ targets p i r u h
    · simp only [List.mem_append] at h
      rcases h with h | h
      · exact processPods_updated_iff pdbs api _ targets p i r u h
      · exact ih _ p i r u h

/-- Claim C6 (corrected): in every sweep, a recorded eviction attempt
mutates the chosen destination snapshot exactly when the eviction call
returned a nil error (success, a validation skip, or a swallowed
non-fatal API error); an attempt that fails with a fatal error (or
panics) leaves the snapshot un-updated — so the mutation follows the
non-fatal return of the attempt, not the placement decision. -/
theorem c6_snapshot_amended (pdbs : List PodDisruptionBudget) (api : Pod → ApiResult)
    (ov un : List NodeResourceUsage) (p : Pod) (i : Nat) (r : EvictResult) (u : Bool)
    (h : SweepStep.attempt p i r u ∈ (performRebalancing pdbs api ov un).trace) :
    u = evictReturnsNil r :=
  rebalanceLoop_updated_iff pdbs api ov un p i r u h

set_option maxRecDepth 100000 in
/-- Witness for C6 (corrected) at a concrete fatal attempt. -/
theorem c6_snapshot_amended_witness :
    false = evictReturnsNil (EvictResult.apiFatal "eviction failed: boom") :=
  c6_snapshot_amended [] (fun _ => ApiResult.err "boom") [c6Over] [c6Target] c6Pod 0
    (EvictResult.apiFatal "eviction failed: boom") false (by with_unfolding_all decide)

set_option maxRecDepth 100000 in
/-- Counterexample for C6 as stated: a destination is decided for the
candidate (the scorer returns it), the relocation attempt fails with a
fatal error, and the destination snapshot stays at its pre-decision
value — the claim requires the update to happen after the decision and
before/regardless of the attempt. -/
theorem c6_snapshot_counterexample :
    findBestTargetNode [c6Target] c6Pod = some (0, c6Target) ∧
    getPodCPURequest c6Pod = 500 ∧
    (performRebalancing [] (fun _ => ApiResult.err "boom") [c6Over] [c6Target]).trace =
      [SweepStep.attempt c6Pod 0 (EvictResult.apiFatal "eviction failed: boom") false] ∧
    (performRebalancing [] (fun _ => ApiResult.err "boom") [c6Over] [c6Target]).targets =
      [c6Target] := by
  with_unfolding_all decide

set_option maxRecDepth 1000000 in
/-- Claim C7 is violated by the code (code bug): after the first
relocation the destination snapshot rises to cpu 2030%, far outside the
Underutilized classification (cpu < 40 fails), yet the very next
candidate of the same sweep is still placed onto that destination at
index 0 — the break tests the stored `IsUnderutilized` Boolean, which is
never recomputed after the in-place usage updates, so the exclusion the
claim (and the spec, and the source comment above the break) describes
never happens. -/
theorem c7_stale_flag_bug :
    (performRebalancing [] (fun _ => ApiResult.ok) [c7Over] [c7Target]).trace =
      [SweepStep.attempt c7Pod1 0 EvictResult.evicted true,
       SweepStep.attempt c7Pod2 0 EvictResult.evicted true] ∧
    ¬(c7Target.cpuRequests + getPodCPURequest c7Pod1 < CPUThresholdLow) ∧
    (performRebalancing [] (fun _ => ApiResult.ok) [c7Over] [c7Target]).targets =
      [⟨"t", 2130, 30, false, true, []⟩] := by
  with_unfolding_all decide

/-- Helper: the Go `int32` conversion is the identity on the int32
range. -/
theorem int32cast_eq_of_range (m : Int) (h1 : -2147483648 ≤ m) (h2 : m < 2147483648) :
    int32cast m = m := by
  unfold int32cast
  have h3 : (m + 2147483648).emod 4294967296 = m + 2147483648 :=
    Int.emod_eq_of_lt (by omega) (by omega)
  omega

/-- Helper: an evictable pod is not terminating. -/
theorem isPodEvictable_not_terminating (pod : Pod) (h : isPodEvictable pod = true) :
    pod.deletionTimestamp.isSome = false := by
  by_cases hd : pod.deletionTimestamp.isSome = true
  · rw [isPodEvictable, if_pos hd] at h
    exact absurd h (by simp)
  · simpa using hd

/-- Helper: when every matching budget in the walked list has its
MinAvailable set and some matching budget blocks (integer
minimum-available at least the healthy count), the PDB check loop
reports a violation (no panic). -/
theorem checkPDBLoop_violated (pod : Pod) :
    ∀ (l : List PodDisruptionBudget),
    (∀ pdb ∈ l, podMatchesPDB pod pdb = true → pdb.spec.minAvailable ≠ none) →
    (∃ pdb ∈ l, podMatchesPDB pod pdb = true ∧
      ∃ m : Int, pdb.spec.minAvailable = some (IntOrString.int m) ∧
        -2147483648 ≤ m ∧ m < 2147483648 ∧ pdb.status.currentHealthy ≤ m) →
    ∃ nm, checkPDBLoop pod l = PDBCheckResult.violated nm := by
  intro l
  induction l with
  | nil =>
    intro hall hex
    simp at hex
  | cons pdb rest ih =>
    intro hall hex
    by_cases hm : podMatchesPDB pod pdb = true
    · cases hmin : pdb.spec.minAvailable with
      | none => exact absurd hmin (hall pdb (List.mem_cons_self _ _) hm)
      | some v =>
        by_cases hb : pdb.status.currentHealthy ≤ int32cast (intOrStringIntValue v)
        · refine ⟨pdb.name, ?_⟩
          unfold checkPDBLoop
          simp [hm, hmin, hb]
        · have hred : checkPDBLoop pod (pdb :: rest) = checkPDBLoop pod rest := by
            conv_lhs => rw [checkPDBLoop.eq_def]
            simp [hm, hmin, hb]
          rw [hred]
          apply ih
          · intro p hp hmp
            exact hall p (List.mem_cons_of_mem _ hp) hmp
          · obtain ⟨p, hp, hpm, m, hpmin, hlo, hhi, hle⟩ := hex
            rcases List.mem_cons.mp hp with rfl | hp2
            · exfalso
              rw [hmin] at hpmin
              injection hpmin with hv
              apply hb
              rw [hv]
              simpa [intOrStringIntValue, int32cast_eq_of_range m hlo hhi] using hle
            · exact ⟨p, hp2, hpm, m, hpmin, hlo, hhi, hle⟩
    · have hred : checkPDBLoop pod (pdb :: rest) = checkPDBLoop pod rest := by
        conv_lhs => rw [checkPDBLoop.eq_def]
        simp [hm]
      rw [hred]
      apply ih
      · intro p hp hmp
        exact hall p (List.mem_cons_of_mem _ hp) hmp
      · obtain ⟨p, hp, hpm, hrest⟩ := hex
        rcases List.mem_cons.mp hp with rfl | hp2
        · exact absurd hpm hm
        · exact ⟨p, hp2, hpm, hrest⟩

/-- Helper: a reported violation makes `validateEviction` fail
(returning the wrapped non-nil error, embedded as `invalid`). -/
theorem validateEviction_invalid_of_violated (pdbs : List PodDisruptionBudget) (pod : Pod)
    (hv : ∃ nm, checkPodDisruptionBudget pdbs pod = PDBCheckResult.violated nm) :
    validateEviction pdbs pod = ValidationResult.invalid := by
  obtain ⟨nm, hnm⟩ := hv
  unfold validateEviction
  by_cases he : isPodEvictable pod = false
  · rw [if_pos he]
  · rw [if_neg he]
    have ht : pod.deletionTimestamp.isSome = false :=
      isPodEvictable_not_terminating pod (by revert he; cases isPodEvictable pod <;> simp)
    rw [ht]
    simp [hnm]

/-- Helper: the destination returned by the scorer is an element of the
destination list. -/
theorem fbt_mem (targets : List NodeResourceUsage) (pod : Pod) (i : Nat) (n : NodeResourceUsage)
    (h : findBestTargetNode targets pod = some (i, n)) : n ∈ targets := by
  cases targets with
  | nil => simp [findBestTargetNode, fbtLoop] at h
  | cons x xs =>
    obtain ⟨i2, n2, heq, hget, -⟩ := fbt_spec (x :: xs) pod (by simp)
    rw [h] at heq
    injection heq with hpair
    obtain ⟨rfl, rfl⟩ := Prod.mk.injEq .. |>.mp hpair
    exact List.get?_mem hget

/-- Claim C8 (corrected): provided every budget in the pod namespace
whose selector matches the workload has its minimum-available set (the
precondition the nil-MinAvailable panic forces, see C10), a matching
budget with currently-healthy at most its integer minimum-available makes
the executor abandon the relocation: no eviction request is issued, the
nil return surfaces no error, and the remaining candidates of the sweep
are still processed. -/
theorem c8_pdb_amended (pdbs : List PodDisruptionBudget) (pod : Pod)
    (hall : ∀ pdb ∈ pdbs, pdb.ns = pod.ns → podMatchesPDB pod pdb = true →
      pdb.spec.minAvailable ≠ none)
    (hex : ∃ pdb ∈ pdbs, pdb.ns = pod.ns ∧ podMatchesPDB pod pdb = true ∧
      ∃ m : Int, pdb.spec.minAvailable = some (IntOrString.int m) ∧
        -2147483648 ≤ m ∧ m < 2147483648 ∧ pdb.status.currentHealthy ≤ m) :
    (∀ api, evictPod pdbs api pod = EvictResult.skipped ∧
      evictRequestIssued (evictPod pdbs api pod) = false ∧
      evictErr (evictPod pdbs api pod) = none) ∧
    (∀ (api : Pod → ApiResult) (rest : List Pod) (targets : List NodeResourceUsage)
      (i : Nat) (n : NodeResourceUsage),
      (∀ t ∈ targets, t.isUnderutilized = true) →
      findBestTargetNode targets pod = some (i, n) →
      processPods pdbs api (pod :: rest) targets =
        ⟨(processPods pdbs api rest (targets.set i
            { n with cpuRequests := n.cpuRequests + getPodCPURequest pod
                     memoryRequests := n.memoryRequests + getPodMemoryRequest pod })).panicked,
         (processPods pdbs api rest (targets.set i
            { n with cpuRequests := n.cpuRequests + getPodCPURequest pod
                     memoryRequests := n.memoryRequests + getPodMemoryRequest pod })).targets,
         SweepStep.attempt pod i EvictResult.skipped true ::
           (processPods pdbs api rest (targets.set i
             { n with cpuRequests := n.cpuRequests + getPodCPURequest pod
                      memoryRequests := n.memoryRequests + getPodMemoryRequest pod })).trace,
         (processPods pdbs api rest (targets.set i
            { n with cpuRequests := n.cpuRequests + getPodCPURequest pod
                     memoryRequests := n.memoryRequests + getPodMemoryRequest pod })).err⟩) := by
  have hviol : ∃ nm, checkPodDisruptionBudget pdbs pod = PDBCheckResult.violated nm := by
    unfold checkPodDisruptionBudget
    apply checkPDBLoop_violated
    · intro p hp hmp
      obtain ⟨hp2, hdec⟩ := List.mem_filter.mp hp
      exact hall p hp2 (of_decide_eq_true hdec) hmp
    · obtain ⟨p, hp, hns, hpm, hrest⟩ := hex
      exact ⟨p, List.mem_filter.mpr ⟨hp, by simp [hns]⟩, hpm, hrest⟩
  have hskip : ∀ api, evictPod pdbs api pod = EvictResult.skipped := by
    intro api
    unfold evictPod
    rw [validateEviction_invalid_of_violated pdbs pod hviol]
  refine ⟨fun api => ⟨hskip api, by rw [hskip api]; rfl, by rw [hskip api]; rfl⟩, ?_⟩
  intro api rest targets i n htgts hfbt
  have hnu : n.isUnderutilized = true := htgts n (fbt_mem targets pod i n hfbt)
  rw [processPods, hfbt, hskip (api pod)]
  simp only [reduceCtorEq, reduceIte, evictErr, Option.isSome_none, Bool.false_eq_true]
  rw [if_neg (by simp [hnu])]

/-- Witness for C8 (corrected): the claim example, minAvailable=2 and
currentHealthy=2 on a matching budget, yields a skip with no eviction
request and no error. -/
theorem c8_pdb_amended_witness :
    evictPod [c8PdbBlock] ApiResult.ok c8Pod = EvictResult.skipped ∧
    evictRequestIssued (evictPod [c8PdbBlock] ApiResult.ok c8Pod) = false ∧
    evictErr (evictPod [c8PdbBlock] ApiResult.ok c8Pod) = none :=
  (c8_pdb_amended [c8PdbBlock] c8Pod
    (by intro pdb hp hns hm; simp [List.mem_singleton] at hp; subst hp; simp [c8PdbBlock])
    ⟨c8PdbBlock, by simp, rfl, by decide, 2, rfl, by decide, by decide, by decide⟩).1
    ApiResult.ok

set_option maxRecDepth 1000000 in
/-- Counterexample for C8 as stated: a matching budget with
minAvailable=2 and currentHealthy=2 exists (the claim antecedent), but
because another matching budget in the same namespace has a nil
minimum-available and is walked first, the check panics instead of
abandoning gracefully — the sweep aborts rather than continuing with the
other workloads. -/
theorem c8_pdb_counterexample :
    podMatchesPDB c8Pod c8PdbBlock = true ∧
    c8PdbBlock.status.currentHealthy ≤ int32cast (intOrStringIntValue (IntOrString.int 2)) ∧
    evictPod [c8PdbNil, c8PdbBlock] ApiResult.ok c8Pod = EvictResult.panicked ∧
    evictPod [c8PdbNil, c8PdbBlock] ApiResult.ok c8Pod ≠ EvictResult.skipped ∧
    (performRebalancing [c8PdbNil, c8PdbBlock] (fun _ => ApiResult.ok)
      [c8Over] [c8Target]).panicked = true := by
  with_unfolding_all decide

/-- Helper: the inner rebalancing loop never returns an error value. -/
theorem processPods_err_none (pdbs : List PodDisruptionBudget) (api : Pod → ApiResult) :
    ∀ (pods : List Pod) (targets : List NodeResourceUsage),
      (processPods pdbs api pods targets).err = none := by
  intro pods
  induction pods with
  | nil => intro targets; rfl
  | cons pod rest ih =>
    intro targets
    rw [processPods]
    cases hf : findBestTargetNode targets pod with
    | none => simp [ih]
    | some pr =>
      obtain ⟨j, n⟩ := pr
      simp only []
      split_ifs <;> simp [ih]

/-- Helper: the sweep function always returns nil to its caller (its
only return statement is `return nil`). -/
theorem rebalanceLoop_err_none (pdbs : List PodDisruptionBudget) (api : Pod → ApiResult) :
    ∀ (ov targets : List NodeResourceUsage), (rebalanceLoop pdbs api ov targets).err = none := by
  intro ov
  induction ov with
  | nil => intro targets; rfl
  | cons o os ih =>
    intro targets
    rw [rebalanceLoop]
    split_ifs <;> simp [ih]

/-- Claim C9 (corrected): the executor classifies an eviction API error
by substring, in source order: a disruption-budget text is non-fatal
(nil), then a not-found text is treated as success (nil), then a
permission-denied text and any other text produce a returned error — but
that fatal error only reaches the per-workload loop, which logs it and
continues with the other workloads; the sweep itself always returns nil
to its caller, so fatal errors are not propagated beyond the loop. -/
theorem c9_error_amended :
    (∀ m : String,
      (strContains m "PodDisruptionBudget" = true → handleEvictionError m = none) ∧
      (strContains m "PodDisruptionBudget" = false → strContains m "not found" = true →
        handleEvictionError m = none) ∧
      (strContains m "PodDisruptionBudget" = false → strContains m "not found" = false →
        strContains m "forbidden" = true →
        handleEvictionError m = some ("eviction forbidden: " ++ m)) ∧
      (strContains m "PodDisruptionBudget" = false → strContains m "not found" = false →
        strContains m "forbidden" = false →
        handleEvictionError m = some ("eviction failed: " ++ m))) ∧
    (∀ (pdbs : List PodDisruptionBudget) (api : Pod → ApiResult) (pod : Pod) (rest : List Pod)
      (targets : List NodeResourceUsage) (i : Nat) (n : NodeResourceUsage) (e : String),
      findBestTargetNode targets pod = some (i, n) →
      evictPod pdbs (api pod) pod = EvictResult.apiFatal e →
      processPods pdbs api (pod :: rest) targets =
        ⟨(processPods pdbs api rest targets).panicked,
         (processPods pdbs api rest targets).targets,
         SweepStep.attempt pod i (EvictResult.apiFatal e) false ::
           (processPods pdbs api rest targets).trace,
         (processPods pdbs api rest targets).err⟩) ∧
    (∀ (pdbs : List PodDisruptionBudget) (api : Pod → ApiResult) (ov un : List NodeResourceUsage),
      (performRebalancing pdbs api ov un).err = none) := by
  refine ⟨?_, ?_, ?_⟩
  · intro m
    refine ⟨?_, ?_, ?_, ?_⟩
    · intro h1
      simp [handleEvictionError, h1]
    · intro h1 h2
      simp [handleEvictionError, h1, h2]
    · intro h1 h2 h3
      simp [handleEvictionError, h1, h2, h3]
    · intro h1 h2 h3
      simp [handleEvictionError, h1, h2, h3]
  · intro pdbs api pod rest targets i n e hf he
    rw [processPods, hf, he]
    simp [evictErr]
  · intro pdbs api ov un
    exact rebalanceLoop_err_none pdbs api ov un

/-- Witness for C9 (corrected) on a concrete permission-denied text. -/
theorem c9_error_amended_witness :
    handleEvictionError "forbidden" = some ("eviction forbidden: " ++ "forbidden") :=
  (c9_error_amended.1 "forbidden").2.2.1 (by decide) (by decide) (by decide)

set_option maxRecDepth 1000000 in
/-- Counterexample for C9 as stated: a permission-denied API error is
classified fatal by the eviction step, yet the sweep still returns nil
to its caller — nothing is propagated to the caller of the sweep, the
error dies in the per-workload loop. -/
theorem c9_error_counterexample :
    handleEvictionError "cannot evict: forbidden" =
      some "eviction forbidden: cannot evict: forbidden" ∧
    (performRebalancing [] (fun _ => ApiResult.err "cannot evict: forbidden")
        [c9Over] [c9Target]).trace =
      [SweepStep.attempt c9Pod 0
        (EvictResult.apiFatal "eviction forbidden: cannot evict: forbidden") false] ∧
    (performRebalancing [] (fun _ => ApiResult.err "cannot evict: forbidden")
        [c9Over] [c9Target]).err = none ∧
    (performRebalancing [] (fun _ => ApiResult.err "cannot evict: forbidden")
        [c9Over] [c9Target]).panicked = false := by
  with_unfolding_all decide

/-- Helper: the PDB check loop cannot panic when every matching budget
it walks has its MinAvailable set. -/
theorem checkPDBLoop_no_panic (pod : Pod) :
    ∀ (l : List PodDisruptionBudget),
    (∀ pdb ∈ l, podMatchesPDB pod pdb = true → pdb.spec.minAvailable ≠ none) →
    checkPDBLoop pod l ≠ PDBCheckResult.panicked := by
  intro l
  induction l with
  | nil =>
    intro hall
    simp [checkPDBLoop]
  | cons pdb rest ih =>
    intro hall
    by_cases hm : podMatchesPDB pod pdb = true
    · cases hmin : pdb.spec.minAvailable with
      | none => exact absurd hmin (hall pdb (List.mem_cons_self _ _) hm)
      | some v =>
        by_cases hb : pdb.status.currentHealthy ≤ int32cast (intOrStringIntValue v)
        · have hred : checkPDBLoop pod (pdb :: rest) = PDBCheckResult.violated pdb.name := by
            conv_lhs => rw [checkPDBLoop.eq_def]
            simp [hm, hmin, hb]
          rw [hred]
          simp
        · have hred : checkPDBLoop pod (pdb :: rest) = checkPDBLoop pod rest := by
            conv_lhs => rw [checkPDBLoop.eq_def]
            simp [hm, hmin, hb]
          rw [hred]
          exact ih fun p hp hmp => hall p (List.mem_cons_of_mem _ hp) hmp
    · have hred : checkPDBLoop pod (pdb :: rest) = checkPDBLoop pod rest := by
        conv_lhs => rw [checkPDBLoop.eq_def]
        simp [hm]
      rw [hred]
      exact ih fun p hp hmp => hall p (List.mem_cons_of_mem _ hp) hmp

set_option maxRecDepth 1000000 in
/-- Claim C10: a candidate whose namespace contains a matching budget
with an unset minimum-available makes the disruption check dereference
the nil field: the check panics and the sweep aborts instead of
returning a result; the check cannot panic when every matching budget in
the namespace has minimum-available set; and a percentage-form
minimum-available is silently read as the integer 0, allowing the
eviction of a pod with positive healthy count. -/
theorem c10_nil_minavailable :
    checkPodDisruptionBudget [c10PdbNil] c10Pod = PDBCheckResult.panicked ∧
    (performRebalancing [c10PdbNil] (fun _ => ApiResult.ok) [c10Over] [c10Target]).panicked
      = true ∧
    (∀ (pdbs : List PodDisruptionBudget) (pod : Pod),
      (∀ pdb ∈ pdbs, pdb.ns = pod.ns → podMatchesPDB pod pdb = true →
        pdb.spec.minAvailable ≠ none) →
      checkPodDisruptionBudget pdbs pod ≠ PDBCheckResult.panicked) ∧
    intOrStringIntValue (IntOrString.str "50%") = 0 ∧
    checkPodDisruptionBudget [c10PdbPct] c10Pod = PDBCheckResult.ok := by
  refine ⟨by decide, by with_unfolding_all decide, ?_, by decide, by decide⟩
  intro pdbs pod hall
  unfold checkPodDisruptionBudget
  apply checkPDBLoop_no_panic
  intro p hp hm
  obtain ⟨hp2, hdec⟩ := List.mem_filter.mp hp
  exact hall p hp2 (of_decide_eq_true hdec) hm

/-- Witness for C10 at a concrete budget list with minimum-available
set. -/
theorem c10_nil_minavailable_witness :
    checkPodDisruptionBudget [c10PdbSet] c10Pod ≠ PDBCheckResult.panicked :=
  c10_nil_minavailable.2.2.1 [c10PdbSet] c10Pod (by decide)

end NodeBalancer
